import Mathlib

/-!
Shallow embedding of the finger retargeting engine and periodic module of
`walking-teleoperation` (files `HapticGloveFingersRetargeting.cpp` and
`HapticGloveModule.cpp`).  Dynamic Eigen matrices of doubles are embedded as
row lists of rational rows (`List (List ℚ)`); exact rational arithmetic plays
the role of the double arithmetic, so that every definition is executable.
-/

set_option autoImplicit false

namespace WalkingTeleop

/-- Dot product of two rows, `Eigen` style: the sum of pairwise products. -/
def dotQ (u v : List ℚ) : ℚ :=
  (List.zipWith (fun a b => a * b) u v).sum

/-- Column `j` of a row-major matrix (out-of-range entries read as `0`,
matching the fact that the C++ code only ever reads in-range entries). -/
def colQ (M : List (List ℚ)) (j : ℕ) : List ℚ :=
  M.map (fun r => r.getD j 0)

/-- Embedding of `M.transpose()` for a matrix whose column count is `cols`. -/
def transposeQ (cols : ℕ) (M : List (List ℚ)) : List (List ℚ) :=
  (List.range cols).map (fun j => colQ M j)

/-- Matrix product `M * N` where `N` has `nCols` columns. -/
def matMulQ (M N : List (List ℚ)) (nCols : ℕ) : List (List ℚ) :=
  M.map (fun r => (List.range nCols).map (fun j => dotQ r (colQ N j)))

/-- Matrix–vector product `M * v` (the `coeff * jointsData.col(i)` step). -/
def matVecQ (M : List (List ℚ)) (v : List ℚ) : List ℚ :=
  M.map (fun r => dotQ r v)

/-- Scalar multiple of a matrix. -/
def scaleQ (c : ℚ) (M : List (List ℚ)) : List (List ℚ) :=
  M.map (fun r => r.map (fun x => c * x))

/-- The minor of `M` with row `i` and column `j` removed. -/
def minorQ (M : List (List ℚ)) (i j : ℕ) : List (List ℚ) :=
  (M.eraseIdx i).map (fun r => r.eraseIdx j)

/-- Laplace expansion of the determinant along the first row, driven by a fuel
argument so that the recursion is structural and the definition reduces by
evaluation.  Every minor removes exactly one row, so fuel equal to the row
count is never exhausted. -/
def detQAux : ℕ → List (List ℚ) → ℚ
  | 0, _ => 1
  | _, [] => 1
  | n + 1, r :: rs =>
      ((List.range r.length).map
        (fun j => (-1 : ℚ) ^ j * r.getD j 0 * detQAux n (rs.map (fun row => row.eraseIdx j)))).sum

/-- Determinant of a square row-major matrix. -/
def detQ (M : List (List ℚ)) : ℚ := detQAux M.length M

/-- Adjugate of an `n × n` matrix. -/
def adjugateQ (n : ℕ) (M : List (List ℚ)) : List (List ℚ) :=
  (List.range n).map (fun i =>
    (List.range n).map (fun j => (-1 : ℚ) ^ (i + j) * detQ (minorQ M j i)))

/-- Exact counterpart of Eigen's `.inverse()` on an `n × n` matrix: the
adjugate divided by the determinant.  On an invertible matrix this is the
inverse; on a singular one the division is by zero, the exact-arithmetic
counterpart of the NaN/Inf entries double arithmetic produces. -/
def invQ (n : ℕ) (M : List (List ℚ)) : List (List ℚ) :=
  scaleQ (detQ M)⁻¹ (adjugateQ n M)

/-- Modelled from the spec: `push_back_row` (declared in `Utils.hpp`, which is
not among the provided sources) appends one row at the bottom of a row-major
matrix; the sample logs are described as "append-only ... grows row-wise", and
appending fails when the row width does not match the matrix. -/
def push_back_row (M : List (List ℚ)) (row : List ℚ) : Option (List (List ℚ)) :=
  match M with
  | [] => some [row]
  | r :: _ => if row.length = r.length then some (M ++ [row]) else none

/-- One iteration of the training loop on `m_A`: append a row with
`push_back_row`, discarding its Boolean result exactly as the C++ call
`push_back_row(m_A, tetha_i.transpose());` does. -/
def appendRow (acc : List (List ℚ)) (row : List ℚ) : List (List ℚ) :=
  match push_back_row acc row with
  | some a2 => a2
  | none => acc

/-- Clamp `x` into the interval with bounds `lo` and `hi`. -/
def clampQ (lo hi x : ℚ) : ℚ := max lo (min hi x)

/-- Modelled from the spec: the state of the `iCub::ctrl::Integrator`
collaborator (external library), "parameterized at construction by sampling
period, initial position vector, and a limits matrix (axis × min,max)". -/
structure IntegratorState where
  dt : ℚ
  pos : List ℚ
  limMin : List ℚ
  limMax : List ℚ
  deriving Repr, DecidableEq

/-- Modelled from the spec: `integrate` "advances internal state by one time
step and clamps the result to the configured per-axis bounds". -/
def IntegratorState.integrate (st : IntegratorState) (vel : List ℚ) : List ℚ :=
  (List.range st.pos.length).map (fun i =>
    clampQ (st.limMin.getD i 0) (st.limMax.getD i 0)
      (st.pos.getD i 0 + st.dt * vel.getD i 0))

/-- Embedding of the `HapticGlove::RobotControlHelper` collaborator visible
through the calls the retargeting code makes (`getActuatedDoFs`,
`getNumberOfJoints`, `jointEncoders`, `analogSensors`, `getVelocityLimits`,
`getFeedback`, `move`): per-hand cached sensor readings and the last actuator
command. -/
structure RobotControlHelper where
  actuatedDoFs : ℕ
  numberOfJoints : ℕ
  encoderCache : List ℚ
  analogCache : List ℚ
  velocityLimitMax : List ℚ
  lastMoveCommand : Option (List ℚ)
  deriving Repr, DecidableEq

/-- Modelled from the spec: `getFeedback() -> ok` "refreshes internal cache";
on `FeedbackUnavailable` the "stale cache [is] retained".  The environment
supplies either a fresh pair of encoder/analog readings or a read failure. -/
def RobotControlHelper.getFeedback (c : RobotControlHelper)
    (reading : Option (List ℚ × List ℚ)) : Bool × RobotControlHelper :=
  match reading with
  | some (enc, ana) => (true, { c with encoderCache := enc, analogCache := ana })
  | none => (false, c)

/-- State of one `FingersRetargeting` instance (one hand), as set up by
`FingersRetargeting::configure`. -/
structure FingersRetargeting where
  ctrl : RobotControlHelper
  fingersScaling : List ℚ
  motorJointsCoupled : Bool
  doCalibration : Bool
  A : List (List ℚ)
  controlCoeff : List (List ℚ)
  desiredMotorValue : List ℚ
  desiredJointValue : List ℚ
  motorsData : List (List ℚ)
  jointsData : List (List ℚ)
  motorVelocityReference : List ℚ
  fingerIntegrator : Option IntegratorState
  deriving Repr, DecidableEq

namespace FingersRetargeting

/-- Embedding of `FingersRetargeting::setFingersAxisReference`: fails on size mismatch with
`m_desiredMotorValue`, otherwise stores entrywise
`fingersReference(i) * m_fingersScaling(i)` as the desired motor command. -/
def setFingersAxisReference (s : FingersRetargeting) (fingersReference : List ℚ) :
    Bool × FingersRetargeting :=
  if fingersReference.length ≠ s.desiredMotorValue.length then
    (false, s)
  else
    (true, { s with
      desiredMotorValue := (List.range fingersReference.length).map
        (fun i => fingersReference.getD i 0 * s.fingersScaling.getD i 0) })

/-- Embedding of `FingersRetargeting::setFingersJointReference`: fails on size mismatch
with `m_desiredJointValue`; otherwise forms the joint column vector, multiplies
by `m_controlCoeff`, copies the first `noMotors` entries into a motor
reference, and calls `setFingersAxisReference` on it (discarding its result),
returning `true`. -/
def setFingersJointReference (s : FingersRetargeting) (fingersReference : List ℚ) :
    Bool × FingersRetargeting :=
  if fingersReference.length ≠ s.desiredJointValue.length then
    (false, s)
  else
    let noJoints := s.ctrl.numberOfJoints
    let noMotors := s.ctrl.actuatedDoFs
    let fingersJointsRef := (List.range noJoints).map (fun i => fingersReference.getD i 0)
    let fingersMotorRef := matVecQ s.controlCoeff fingersJointsRef
    let fingersMotorsReference :=
      (List.range noMotors).map (fun i => fingersMotorRef.getD i 0)
    (true, (s.setFingersAxisReference fingersMotorsReference).2)

/-- Embedding of `FingersRetargeting::updateFeedback`: delegate to the control helper's
`getFeedback`; a failure is only logged. -/
def updateFeedback (s : FingersRetargeting) (reading : Option (List ℚ × List ℚ)) :
    Bool × FingersRetargeting :=
  let res := s.ctrl.getFeedback reading
  (res.1, { s with ctrl := res.2 })

/-- Embedding of `FingersRetargeting::getFingerAxisMeasuredValues`: returns the cached
`jointEncoders()` vector of the control helper. -/
def getFingerAxisMeasuredValues (s : FingersRetargeting) : List ℚ :=
  s.ctrl.encoderCache

/-- Embedding of `FingersRetargeting::getFingerJointsMeasuredValues`: returns the cached
`analogSensors()` vector of the control helper. -/
def getFingerJointsMeasuredValues (s : FingersRetargeting) : List ℚ :=
  s.ctrl.analogCache

/-- Modelled from the spec: `FingersRetargeting::move` (declared in the header,
which is not among the provided sources) pushes the stored desired motor
command to the actuator collaborator's `move(axisRef)`. -/
def move (s : FingersRetargeting) : FingersRetargeting :=
  { s with ctrl := { s.ctrl with lastMoveCommand := some s.desiredMotorValue } }

/-- The `1 × noAxis` Eigen row built from the cached axis measurements at the
start of both calibration-logging operations. -/
def calibMotorRow (s : FingersRetargeting) : List ℚ :=
  (List.range s.ctrl.actuatedDoFs).map (fun i => s.ctrl.encoderCache.getD i 0)

/-- The `1 × noJoints` Eigen row built from the cached joint measurements at
the start of both calibration-logging operations. -/
def calibJointRow (s : FingersRetargeting) : List ℚ :=
  (List.range s.ctrl.numberOfJoints).map (fun i => s.ctrl.analogCache.getD i 0)

/-- Embedding of `FingersRetargeting::LogDataToCalibrateRobotMotorsJointsCouplingRandom`:
returns `true` at once unless both `m_motorJointsCoupled` and
`m_doCalibration` hold; fails if the integrator was never constructed;
otherwise appends the cached measurements as one row to each sample log, draws
one random velocity per axis inside the velocity limits (the `rand()` ratios
are supplied by the environment as `randRatios`) and pushes them onto the
ever-growing `m_motorVelocityReference`, integrates it, stores the integrated
position as the axis reference and moves the actuator. -/
def LogDataToCalibrateRobotMotorsJointsCouplingRandom (s : FingersRetargeting)
    (generateRandomVelocity : Bool) (randRatios : List ℚ) :
    Bool × FingersRetargeting :=
  if !s.motorJointsCoupled then (true, s)
  else if !s.doCalibration then (true, s)
  else
    match s.fingerIntegrator with
    | none => (false, s)
    | some integ =>
      match push_back_row s.motorsData (calibMotorRow s) with
      | none => (false, s)
      | some md =>
        match push_back_row s.jointsData (calibJointRow s) with
        | none => (false, { s with motorsData := md })
        | some jd =>
          let s1 := { s with motorsData := md, jointsData := jd }
          let noAxis := s1.ctrl.actuatedDoFs
          let mvr :=
            if generateRandomVelocity then
              s1.motorVelocityReference ++ (List.range noAxis).map (fun i =>
                -1 * s1.ctrl.velocityLimitMax.getD i 0
                  + randRatios.getD i 0 * (2 * s1.ctrl.velocityLimitMax.getD i 0))
            else
              s1.motorVelocityReference
          let motorReference := integ.integrate mvr
          let s2 := { s1 with
            motorVelocityReference := mvr
            fingerIntegrator := some { integ with pos := motorReference } }
          let s3 := (s2.setFingersAxisReference motorReference).2
          (true, s3.move)

/-- Embedding of `FingersRetargeting::LogDataToCalibrateRobotMotorsJointsCouplingSin`:
returns `true` at once unless both `m_motorJointsCoupled` and
`m_doCalibration` hold; fails if the integrator was never constructed;
otherwise appends the cached measurements as one row to each sample log,
builds the single-axis sinusoidal excitation `pi4 + pi4 * sin(time)` on axis
`axisNumber` (zeros elsewhere; `pi4` abstracts the double constant `M_PI_4`
and `sinTime` the value `sin(time)`), stores it as the axis reference and
moves the actuator. -/
def LogDataToCalibrateRobotMotorsJointsCouplingSin (s : FingersRetargeting)
    (pi4 sinTime : ℚ) (axisNumber : ℕ) : Bool × FingersRetargeting :=
  if !s.motorJointsCoupled then (true, s)
  else if !s.doCalibration then (true, s)
  else
    match s.fingerIntegrator with
    | none => (false, s)
    | some _ =>
      match push_back_row s.motorsData (calibMotorRow s) with
      | none => (false, s)
      | some md =>
        match push_back_row s.jointsData (calibJointRow s) with
        | none => (false, { s with motorsData := md })
        | some jd =>
          let s1 := { s with motorsData := md, jointsData := jd }
          let noAxis := s1.ctrl.actuatedDoFs
          let motorReference :=
            (List.replicate noAxis (0 : ℚ)).set axisNumber (pi4 + pi4 * sinTime)
          let s2 := (s1.setFingersAxisReference motorReference).2
          (true, s2.move)

/-- Embedding of `FingersRetargeting::trainCouplingMatrix`: computes
`coeff = (motorsDataᵀ * motorsData).inverse() * motorsDataᵀ`, then for every
joint `i` appends `(coeff * jointsData.col(i))ᵀ` as a row at the bottom of
`m_A` (the `push_back_row` result is discarded by the C++ code, so a failed
append leaves `m_A` as it was), and finally sets
`m_controlCoeff = (Aᵀ * A).inverse() * Aᵀ`.  The C++ function is declared
`bool` but contains no `return` statement and no failure branch: it only logs
the determinant and the rank of `motorsDataᵀ * motorsData` before inverting it
unconditionally.  The embedding therefore returns the updated state with no
error channel. -/
def trainCouplingMatrix (s : FingersRetargeting) : FingersRetargeting :=
  let noAxis := s.ctrl.actuatedDoFs
  let noJoints := s.ctrl.numberOfJoints
  let xT := transposeQ noAxis s.motorsData
  let xT_x := matMulQ xT s.motorsData noAxis
  let coeff := matMulQ (invQ noAxis xT_x) xT s.motorsData.length
  let A := (List.range noJoints).foldl
      (fun acc i => appendRow acc (matVecQ coeff (colQ s.jointsData i))) s.A
  let aT := transposeQ noAxis A
  let controlCoeff := matMulQ (invQ noAxis (matMulQ aT A noAxis)) aT A.length
  { s with A := A, controlCoeff := controlCoeff }

end FingersRetargeting

/-- The finite-state machine of the periodic module. -/
inductive HapticGloveFSM where
  | Configured
  | InPreparation
  | Running
  deriving Repr, DecidableEq

/-- State of `HapticGloveModule` after `configure`: the scheduler state, the
two timestamps, the two per-hand retargeting engines and the per-hand
reference/feedback vectors. -/
structure HapticGloveModule where
  state : HapticGloveFSM
  timeStarting : ℚ
  timeNow : ℚ
  leftHandFingers : FingersRetargeting
  rightHandFingers : FingersRetargeting
  icubLeftFingerAxisReference : List ℚ
  icubRightFingerAxisReference : List ℚ
  icubLeftFingerAxisFeedback : List ℚ
  icubLeftFingerJointsFeedback : List ℚ
  icubRightFingerAxisFeedback : List ℚ
  icubRightFingerJointsFeedback : List ℚ
  deriving Repr, DecidableEq

/-- Per-cycle environment of one `updateModule` call: the wall-clock time
`now`, the value `sinElapsed` of `sin(now - timeStarting)` (the transcendental
function is supplied by the environment since the embedding is rational), and
the sensor readings offered to each hand (`none` models a failed read). -/
structure CycleEnv where
  now : ℚ
  sinElapsed : ℚ
  leftReading : Option (List ℚ × List ℚ)
  rightReading : Option (List ℚ × List ℚ)
  deriving Repr, DecidableEq

namespace HapticGloveModule

/-- Embedding of `HapticGloveModule::getFeedbacks`: calls `updateFeedback` on the left hand
only (a failure is only logged), copies the left hand's cached measurements
into the left feedback vectors, and always returns `true`.  The right hand is
never touched. -/
def getFeedbacks (m : HapticGloveModule) (env : CycleEnv) : Bool × HapticGloveModule :=
  let res := m.leftHandFingers.updateFeedback env.leftReading
  let left := res.2
  (true, { m with
    leftHandFingers := left
    icubLeftFingerAxisFeedback := left.getFingerAxisMeasuredValues
    icubLeftFingerJointsFeedback := left.getFingerJointsMeasuredValues })

/-- The synthetic reference sample `M_PI_4 + M_PI_4 * sin(timeNow -
timeStarting)` computed in the `Running` branch; `pi4` abstracts `M_PI_4`. -/
def refSample (pi4 sinElapsed : ℚ) : ℚ := pi4 + pi4 * sinElapsed

/-- Overwrite the first `n` entries of `xs` with `v`, leaving later entries as
they are: the effect of the `for` loop writing the reference vectors. -/
def overwriteFirst (n : ℕ) (v : ℚ) (xs : List ℚ) : List ℚ :=
  (List.range xs.length).map (fun i => if i < n then v else xs.getD i 0)

/-- Embedding of `HapticGloveModule::updateModule`: one periodic cycle.  It first calls
`getFeedbacks` (which always succeeds); in `Running` it records `timeNow`,
writes the shared sinusoidal sample into the first `noLeftFingersAxis` entries
of both axis-reference vectors, pushes each vector to its hand's retargeting
engine and moves both hands; in `Configured` it only moves to `InPreparation`;
in `InPreparation` it records `timeStarting` and moves to `Running`.  It
returns `true` in every branch. -/
def updateModule (m : HapticGloveModule) (pi4 : ℚ) (env : CycleEnv) :
    Bool × HapticGloveModule :=
  let m1 := (m.getFeedbacks env).2
  match m1.state with
  | HapticGloveFSM.Running =>
      let m2 := { m1 with timeNow := env.now }
      let noLeftFingersAxis := m2.leftHandFingers.ctrl.actuatedDoFs
      let v := refSample pi4 env.sinElapsed
      let leftRef := overwriteFirst noLeftFingersAxis v m2.icubLeftFingerAxisReference
      let rightRef := overwriteFirst noLeftFingersAxis v m2.icubRightFingerAxisReference
      let left2 := ((m2.leftHandFingers.setFingersAxisReference leftRef).2).move
      let right2 := ((m2.rightHandFingers.setFingersAxisReference rightRef).2).move
      (true, { m2 with
        icubLeftFingerAxisReference := leftRef
        icubRightFingerAxisReference := rightRef
        leftHandFingers := left2
        rightHandFingers := right2 })
  | HapticGloveFSM.Configured =>
      (true, { m1 with state := HapticGloveFSM.InPreparation })
  | HapticGloveFSM.InPreparation =>
      (true, { m1 with timeStarting := env.now, state := HapticGloveFSM.Running })

/-- Repeated periodic cycles: fold `updateModule` over a list of per-cycle
environments, keeping only the state (the Boolean is `true` in every
branch). -/
def runCycles (m : HapticGloveModule) (pi4 : ℚ) (envs : List CycleEnv) :
    HapticGloveModule :=
  envs.foldl (fun acc env => (acc.updateModule pi4 env).2) m

end HapticGloveModule

/-- A concrete control helper with two axes and three joints, used to
instantiate theorems on concrete states. -/
def sampleCtrl : RobotControlHelper :=
  { actuatedDoFs := 2
    numberOfJoints := 3
    encoderCache := [1, 2]
    analogCache := [4, 5, 6]
    velocityLimitMax := [10, 10]
    lastMoveCommand := none }

/-- A concrete integrator state for the sample hand. -/
def sampleIntegrator : IntegratorState :=
  { dt := 1/10, pos := [0, 0], limMin := [-5, -5], limMax := [5, 5] }

/-- A concrete hand in coupled calibration mode with empty sample logs, the
state `FingersRetargeting::configure` leaves in that mode. -/
def sampleHand : FingersRetargeting :=
  { ctrl := sampleCtrl
    fingersScaling := [1, 2]
    motorJointsCoupled := true
    doCalibration := true
    A := []
    controlCoeff := [[1, 0, 0], [0, 1, 0]]
    desiredMotorValue := [0, 0]
    desiredJointValue := [0, 0, 0]
    motorsData := []
    jointsData := []
    motorVelocityReference := []
    fingerIntegrator := some sampleIntegrator }

/-- The least-squares coefficient as the spec words it:
`coeff = pinv(motorsData) = (motorsDataᵀ·motorsData)⁻¹·motorsDataᵀ`. -/
def specCoeff (s : FingersRetargeting) : List (List ℚ) :=
  matMulQ
    (invQ s.ctrl.actuatedDoFs
      (matMulQ (transposeQ s.ctrl.actuatedDoFs s.motorsData) s.motorsData
        s.ctrl.actuatedDoFs))
    (transposeQ s.ctrl.actuatedDoFs s.motorsData) s.motorsData.length

/-- The coupling matrix as the spec words it: one row per joint `j`, the row
being `coeff · jointsData[:,j]`, assembled row by row across joints. -/
def specCouplingA (s : FingersRetargeting) : List (List ℚ) :=
  (List.range s.ctrl.numberOfJoints).map
    (fun i => matVecQ (specCoeff s) (colQ s.jointsData i))

/-- The control coefficient as the spec words it:
`controlCoeff = pinv(A) = (Aᵀ·A)⁻¹·Aᵀ`. -/
def specControlCoeff (noAxis : ℕ) (A : List (List ℚ)) : List (List ℚ) :=
  matMulQ (invQ noAxis (matMulQ (transposeQ noAxis A) A noAxis))
    (transposeQ noAxis A) A.length

/-- One calibration-session record operation, with the inputs the environment
feeds it (the `rand()` ratios, the abstracted `M_PI_4` and `sin(time)`). -/
inductive CalibOp where
  | random (generateRandomVelocity : Bool) (randRatios : List ℚ)
  | sinusoid (pi4 sinTime : ℚ) (axisNumber : ℕ)
  deriving Repr, DecidableEq

/-- Dispatch one calibration record operation on a hand. -/
def applyCalibOp (s : FingersRetargeting) : CalibOp → Bool × FingersRetargeting
  | CalibOp.random b r => s.LogDataToCalibrateRobotMotorsJointsCouplingRandom b r
  | CalibOp.sinusoid p sv ax => s.LogDataToCalibrateRobotMotorsJointsCouplingSin p sv ax

/-- Run a sequence of calibration record operations, keeping the state. -/
def runCalibOps (s : FingersRetargeting) (ops : List CalibOp) : FingersRetargeting :=
  ops.foldl (fun acc op => (applyCalibOp acc op).2) s

/-- Well-formedness of the two sample logs: equally many rows, every motor
row as wide as the axis count and every joint row as wide as the joint count.
`FingersRetargeting::configure` establishes it with zero rows. -/
def SampleLogsWF (s : FingersRetargeting) : Prop :=
  s.motorsData.length = s.jointsData.length
  ∧ (∀ r ∈ s.motorsData, r.length = s.ctrl.actuatedDoFs)
  ∧ (∀ r ∈ s.jointsData, r.length = s.ctrl.numberOfJoints)

instance (s : FingersRetargeting) : Decidable (SampleLogsWF s) := by
  unfold SampleLogsWF; infer_instance

/-- A hand configured with `motorsJointsCoupled = false`: `configure` sets
`m_A` to the identity over the axes and leaves the sample logs empty. -/
def uncoupledHand : FingersRetargeting :=
  { sampleHand with
    motorJointsCoupled := false
    A := [[1, 0], [0, 1]]
    controlCoeff := [] }

/-- A hand whose accumulated motor-data rows are all identical (rank-deficient
excitation): the degenerate calibration dataset of the spec. -/
def degenerateHand : FingersRetargeting :=
  { ctrl :=
      { actuatedDoFs := 2
        numberOfJoints := 1
        encoderCache := [1, 1]
        analogCache := [2]
        velocityLimitMax := [10, 10]
        lastMoveCommand := none }
    fingersScaling := [1, 1]
    motorJointsCoupled := true
    doCalibration := true
    A := []
    controlCoeff := []
    desiredMotorValue := [0, 0]
    desiredJointValue := [0]
    motorsData := [[1, 1], [1, 1]]
    jointsData := [[2], [2]]
    motorVelocityReference := []
    fingerIntegrator := some sampleIntegrator }

/-- A hand holding a full-column-rank motor sample log. -/
def trainedInputHand : FingersRetargeting :=
  { sampleHand with
    motorsData := [[1, 0], [0, 1]]
    jointsData := [[1, 2, 0], [3, 4, 0]] }

/-- The left hand of the concrete module scenario: stale caches of zeros. -/
def sampleLeftHand : FingersRetargeting :=
  { sampleHand with
    ctrl := { sampleCtrl with encoderCache := [0, 0], analogCache := [0, 0, 0] } }

/-- The right hand of the concrete module scenario: stale caches of nines. -/
def sampleRightHand : FingersRetargeting :=
  { sampleHand with
    ctrl := { sampleCtrl with encoderCache := [9, 9], analogCache := [9, 9, 9] } }

/-- A concrete module in the `Running` state. -/
def sampleModule : HapticGloveModule :=
  { state := HapticGloveFSM.Running
    timeStarting := 0
    timeNow := 0
    leftHandFingers := sampleLeftHand
    rightHandFingers := sampleRightHand
    icubLeftFingerAxisReference := [0, 0]
    icubRightFingerAxisReference := [0, 0]
    icubLeftFingerAxisFeedback := [0, 0]
    icubLeftFingerJointsFeedback := [0, 0, 0]
    icubRightFingerAxisFeedback := [9, 9]
    icubRightFingerJointsFeedback := [9, 9, 9] }

/-- A concrete cycle environment offering fresh readings to both hands. -/
def sampleEnv : CycleEnv :=
  { now := 5
    sinElapsed := 0
    leftReading := some ([1, 2], [3, 4, 5])
    rightReading := some ([7, 7], [8, 8, 8]) }

/-- Reading each index of a list back in order reproduces the list. -/
theorem range_map_getD (v : List ℚ) :
    (List.range v.length).map (fun i => v.getD i 0) = v := by
  apply List.ext_get
  · simp
  · intro i h1 h2
    simp only [List.get_eq_getElem, List.getElem_map, List.getElem_range]
    rw [List.getD_eq_getElem v 0 h2]

/-- C3: for an axis vector of the configured size, `setFingersAxisReference`
succeeds, stores the entrywise product with the scaling vector as the desired
motor command, and a second identical call returns the same state. -/
theorem setFingersAxisReference_scales_and_idempotent
    (s : FingersRetargeting) (v : List ℚ)
    (hd : s.desiredMotorValue.length = s.ctrl.actuatedDoFs)
    (hv : v.length = s.ctrl.actuatedDoFs) :
    (s.setFingersAxisReference v).1 = true
    ∧ (s.setFingersAxisReference v).2.desiredMotorValue
        = (List.range v.length).map (fun i => v.getD i 0 * s.fingersScaling.getD i 0)
    ∧ (s.setFingersAxisReference v).2.setFingersAxisReference v
        = (true, (s.setFingersAxisReference v).2) := by
  have hlen : v.length = s.desiredMotorValue.length := by rw [hv, hd]
  unfold FingersRetargeting.setFingersAxisReference
  simp [hlen]

/-- C3 witness. -/
theorem setFingersAxisReference_scales_and_idempotent_witness :
    (sampleHand.setFingersAxisReference [3, 4]).1 = true
    ∧ (sampleHand.setFingersAxisReference [3, 4]).2.desiredMotorValue
        = (List.range ([3, 4] : List ℚ).length).map
            (fun i => ([3, 4] : List ℚ).getD i 0 * sampleHand.fingersScaling.getD i 0)
    ∧ (sampleHand.setFingersAxisReference [3, 4]).2.setFingersAxisReference [3, 4]
        = (true, (sampleHand.setFingersAxisReference [3, 4]).2) :=
  setFingersAxisReference_scales_and_idempotent sampleHand [3, 4] (by decide) (by decide)

/-- C4: a vector of the wrong size makes `setFingersAxisReference` and
`setFingersJointReference` return `false` and leave the state, in particular
the stored desired motor and joint references, unchanged. -/
theorem setReference_wrong_size_rejected
    (s : FingersRetargeting) (v w : List ℚ)
    (hd : s.desiredMotorValue.length = s.ctrl.actuatedDoFs)
    (hj : s.desiredJointValue.length = s.ctrl.numberOfJoints)
    (hv : v.length ≠ s.ctrl.actuatedDoFs)
    (hw : w.length ≠ s.ctrl.numberOfJoints) :
    s.setFingersAxisReference v = (false, s)
    ∧ s.setFingersJointReference w = (false, s) := by
  have hv' : v.length ≠ s.desiredMotorValue.length := by rw [hd]; exact hv
  have hw' : w.length ≠ s.desiredJointValue.length := by rw [hj]; exact hw
  unfold FingersRetargeting.setFingersAxisReference FingersRetargeting.setFingersJointReference
  simp [hv', hw']

/-- C4 witness. -/
theorem setReference_wrong_size_rejected_witness :
    sampleHand.setFingersAxisReference [1, 2, 3] = (false, sampleHand)
    ∧ sampleHand.setFingersJointReference [1] = (false, sampleHand) :=
  setReference_wrong_size_rejected sampleHand [1, 2, 3] [1]
    (by decide) (by decide) (by decide) (by decide)

/-- C5: for a joint vector of the configured size, `setFingersJointReference`
computes the motor reference as the matrix-vector product
`controlCoeff * jointRef` and delegates it to `setFingersAxisReference`. -/
theorem setFingersJointReference_projects_and_delegates
    (s : FingersRetargeting) (v : List ℚ)
    (hj : s.desiredJointValue.length = s.ctrl.numberOfJoints)
    (hv : v.length = s.ctrl.numberOfJoints)
    (hcc : s.controlCoeff.length = s.ctrl.actuatedDoFs) :
    s.setFingersJointReference v
      = (true, (s.setFingersAxisReference (matVecQ s.controlCoeff v)).2) := by
  have hlen : v.length = s.desiredJointValue.length := by rw [hv, hj]
  have hinner : (List.range s.ctrl.numberOfJoints).map (fun i => v.getD i 0) = v := by
    rw [← hv]; exact range_map_getD v
  have houter :
      (List.range s.ctrl.actuatedDoFs).map
        (fun i => (matVecQ s.controlCoeff v).getD i 0) = matVecQ s.controlCoeff v := by
    have hlen2 : (matVecQ s.controlCoeff v).length = s.ctrl.actuatedDoFs := by
      simp [matVecQ, hcc]
    rw [← hlen2]; exact range_map_getD _
  simp only [List.getD_eq_getElem?_getD] at hinner houter
  unfold FingersRetargeting.setFingersJointReference
  simp [hlen, hinner, houter]

/-- C5 witness. -/
theorem setFingersJointReference_projects_and_delegates_witness :
    sampleHand.setFingersJointReference [7, 8, 9]
      = (true, (sampleHand.setFingersAxisReference
          (matVecQ sampleHand.controlCoeff [7, 8, 9])).2) :=
  setFingersJointReference_projects_and_delegates sampleHand [7, 8, 9]
    (by decide) (by decide) (by decide)

/-- C8: with `motorJointsCoupled` or `doCalibration` false, both
calibration-logging operations return `true` and leave the whole state — in
particular the sample logs, the stored references and the actuator command —
unchanged. -/
theorem calibration_log_noop_when_disabled
    (s : FingersRetargeting) (b : Bool) (r : List ℚ) (pi4 sv : ℚ) (ax : ℕ)
    (h : s.motorJointsCoupled = false ∨ s.doCalibration = false) :
    s.LogDataToCalibrateRobotMotorsJointsCouplingRandom b r = (true, s)
    ∧ s.LogDataToCalibrateRobotMotorsJointsCouplingSin pi4 sv ax = (true, s) := by
  unfold FingersRetargeting.LogDataToCalibrateRobotMotorsJointsCouplingRandom
    FingersRetargeting.LogDataToCalibrateRobotMotorsJointsCouplingSin
  rcases h with h | h <;> simp [h]

/-- Appending a row of matching width to a well-formed row-major matrix
always succeeds, producing the matrix with the row at the bottom. -/
theorem push_back_row_wf (M : List (List ℚ)) (r : List ℚ) (L : ℕ)
    (hM : ∀ row ∈ M, row.length = L) (hr : r.length = L) :
    push_back_row M r = some (M ++ [r]) := by
  cases M with
  | nil => rfl
  | cons a tl =>
      have ha : a.length = L := hM a (by simp)
      simp [push_back_row, hr, ha]

/-- Folding `appendRow` with equally wide rows over `List.range` assembles
exactly the listed rows, in order, below the accumulator. -/
theorem foldl_appendRow_rows (f : ℕ → List ℚ) (L : ℕ) (hf : ∀ i, (f i).length = L) :
    ∀ (n : ℕ) (acc : List (List ℚ)), (∀ row ∈ acc, row.length = L) →
      (List.range n).foldl (fun acc2 i => appendRow acc2 (f i)) acc
        = acc ++ (List.range n).map f := by
  intro n
  induction n with
  | zero => intro acc hacc; simp
  | succ k ih =>
      intro acc hacc
      rw [List.range_succ, List.foldl_append, List.map_append, ih acc hacc]
      have hall : ∀ row ∈ acc ++ (List.range k).map f, row.length = L := by
        intro row hrow
        rcases List.mem_append.mp hrow with h1 | h2
        · exact hacc row h1
        · rcases List.mem_map.mp h2 with ⟨i, _, rfl⟩
          exact hf i
      simp only [List.foldl_cons, List.foldl_nil, appendRow,
        push_back_row_wf _ _ L hall (hf k)]
      simp

/-- C1 (evaluation at the failing input): on the all-identical-rows sample
log, the Gram matrix `motorsDataᵀ·motorsData` has determinant zero (the
regression is rank deficient), yet `trainCouplingMatrix` reports no failure
at all: it proceeds through the inversion and returns the garbage matrices
that exact division by the zero determinant yields (the double-arithmetic
counterpart is a matrix of NaN/Inf entries). -/
theorem trainCouplingMatrix_silent_on_degenerate_data :
    detQ (matMulQ (transposeQ 2 degenerateHand.motorsData) degenerateHand.motorsData 2) = 0
    ∧ degenerateHand.trainCouplingMatrix
        = { degenerateHand with A := [[0, 0]], controlCoeff := [[0], [0]] } := by
  norm_num [detQ, detQAux, matMulQ, transposeQ, colQ, dotQ, degenerateHand,
    FingersRetargeting.trainCouplingMatrix, invQ, adjugateQ, minorQ, scaleQ,
    matVecQ, push_back_row, appendRow, List.range_succ, List.replicate,
    List.zipWith, List.sum_cons, List.sum_nil]

/-- C2: starting from the calibration-mode empty `m_A`, with a full-column-
rank motor sample matrix (nonzero Gram determinant), `trainCouplingMatrix`
computes `coeff = (motorsDataᵀ·motorsData)⁻¹·motorsDataᵀ`, assembles `A` row
by row across joints with row `j` equal to `coeff · jointsData[:,j]`, and
sets the control coefficient to `(Aᵀ·A)⁻¹·Aᵀ`. -/
theorem trainCouplingMatrix_least_squares
    (s : FingersRetargeting) (hA : s.A = [])
    (hrank : detQ (matMulQ (transposeQ s.ctrl.actuatedDoFs s.motorsData) s.motorsData
        s.ctrl.actuatedDoFs) ≠ 0) :
    s.trainCouplingMatrix.A = specCouplingA s
    ∧ s.trainCouplingMatrix.controlCoeff
        = specControlCoeff s.ctrl.actuatedDoFs (specCouplingA s) := by
  have h1 : s.trainCouplingMatrix.A
      = (List.range s.ctrl.numberOfJoints).foldl
          (fun acc i => appendRow acc (matVecQ (specCoeff s) (colQ s.jointsData i)))
          s.A := rfl
  have hA2 : s.trainCouplingMatrix.A = specCouplingA s := by
    rw [h1, hA]
    simpa [specCouplingA] using
      foldl_appendRow_rows (fun i => matVecQ (specCoeff s) (colQ s.jointsData i))
        (specCoeff s).length (fun i => by simp [matVecQ])
        s.ctrl.numberOfJoints [] (by simp)
  have h2 : s.trainCouplingMatrix.controlCoeff
      = specControlCoeff s.ctrl.actuatedDoFs s.trainCouplingMatrix.A := rfl
  exact ⟨hA2, by rw [h2, hA2]⟩

/-- C2 witness. -/
theorem trainCouplingMatrix_least_squares_witness :
    trainedInputHand.A = []
    ∧ detQ (matMulQ (transposeQ trainedInputHand.ctrl.actuatedDoFs
        trainedInputHand.motorsData) trainedInputHand.motorsData
        trainedInputHand.ctrl.actuatedDoFs) ≠ 0
    ∧ (trainedInputHand.trainCouplingMatrix.A = specCouplingA trainedInputHand
      ∧ trainedInputHand.trainCouplingMatrix.controlCoeff
          = specControlCoeff trainedInputHand.ctrl.actuatedDoFs
              (specCouplingA trainedInputHand)) :=
  ⟨rfl,
   by norm_num [detQ, detQAux, matMulQ, transposeQ, colQ, dotQ,
     trainedInputHand, sampleHand, sampleCtrl, List.range_succ],
   trainCouplingMatrix_least_squares trainedInputHand rfl
     (by norm_num [detQ, detQAux, matMulQ, transposeQ, colQ, dotQ,
       trainedInputHand, sampleHand, sampleCtrl, List.range_succ])⟩

/-- The setter `setFingersAxisReference` only ever touches the desired motor command:
the sample logs and the control helper are unchanged in both branches. -/
theorem setFingersAxisReference_preserves
    (s : FingersRetargeting) (v : List ℚ) :
    (s.setFingersAxisReference v).2.motorsData = s.motorsData
    ∧ (s.setFingersAxisReference v).2.jointsData = s.jointsData
    ∧ (s.setFingersAxisReference v).2.ctrl = s.ctrl := by
  unfold FingersRetargeting.setFingersAxisReference
  split <;> simp

/-- With both calibration gates open and a constructed integrator, the random
record operation succeeds and appends exactly one row of cached measurements
to each sample log, leaving the axis and joint counts unchanged. -/
theorem logRandom_appends (t : FingersRetargeting) (b : Bool) (r : List ℚ)
    (integ : IntegratorState)
    (hc : t.motorJointsCoupled = true) (hd : t.doCalibration = true)
    (hi : t.fingerIntegrator = some integ)
    (hm : ∀ row ∈ t.motorsData, row.length = t.ctrl.actuatedDoFs)
    (hj : ∀ row ∈ t.jointsData, row.length = t.ctrl.numberOfJoints) :
    (t.LogDataToCalibrateRobotMotorsJointsCouplingRandom b r).1 = true
    ∧ (t.LogDataToCalibrateRobotMotorsJointsCouplingRandom b r).2.motorsData
        = t.motorsData ++ [t.calibMotorRow]
    ∧ (t.LogDataToCalibrateRobotMotorsJointsCouplingRandom b r).2.jointsData
        = t.jointsData ++ [t.calibJointRow]
    ∧ (t.LogDataToCalibrateRobotMotorsJointsCouplingRandom b r).2.ctrl.actuatedDoFs
        = t.ctrl.actuatedDoFs
    ∧ (t.LogDataToCalibrateRobotMotorsJointsCouplingRandom b r).2.ctrl.numberOfJoints
        = t.ctrl.numberOfJoints := by
  unfold FingersRetargeting.LogDataToCalibrateRobotMotorsJointsCouplingRandom
  rw [hi,
    push_back_row_wf t.motorsData t.calibMotorRow t.ctrl.actuatedDoFs hm
      (by simp [FingersRetargeting.calibMotorRow]),
    push_back_row_wf t.jointsData t.calibJointRow t.ctrl.numberOfJoints hj
      (by simp [FingersRetargeting.calibJointRow])]
  simp [hc, hd, FingersRetargeting.move, setFingersAxisReference_preserves]

/-- With both calibration gates open and a constructed integrator, the
sinusoidal record operation succeeds and appends exactly one row of cached
measurements to each sample log, leaving the axis and joint counts
unchanged. -/
theorem logSin_appends (t : FingersRetargeting) (pi4 sv : ℚ) (ax : ℕ)
    (integ : IntegratorState)
    (hc : t.motorJointsCoupled = true) (hd : t.doCalibration = true)
    (hi : t.fingerIntegrator = some integ)
    (hm : ∀ row ∈ t.motorsData, row.length = t.ctrl.actuatedDoFs)
    (hj : ∀ row ∈ t.jointsData, row.length = t.ctrl.numberOfJoints) :
    (t.LogDataToCalibrateRobotMotorsJointsCouplingSin pi4 sv ax).1 = true
    ∧ (t.LogDataToCalibrateRobotMotorsJointsCouplingSin pi4 sv ax).2.motorsData
        = t.motorsData ++ [t.calibMotorRow]
    ∧ (t.LogDataToCalibrateRobotMotorsJointsCouplingSin pi4 sv ax).2.jointsData
        = t.jointsData ++ [t.calibJointRow]
    ∧ (t.LogDataToCalibrateRobotMotorsJointsCouplingSin pi4 sv ax).2.ctrl.actuatedDoFs
        = t.ctrl.actuatedDoFs
    ∧ (t.LogDataToCalibrateRobotMotorsJointsCouplingSin pi4 sv ax).2.ctrl.numberOfJoints
        = t.ctrl.numberOfJoints := by
  unfold FingersRetargeting.LogDataToCalibrateRobotMotorsJointsCouplingSin
  rw [hi,
    push_back_row_wf t.motorsData t.calibMotorRow t.ctrl.actuatedDoFs hm
      (by simp [FingersRetargeting.calibMotorRow]),
    push_back_row_wf t.jointsData t.calibJointRow t.ctrl.numberOfJoints hj
      (by simp [FingersRetargeting.calibJointRow])]
  simp [hc, hd, FingersRetargeting.move, setFingersAxisReference_preserves]

/-- With either calibration gate closed, both record operations return
success with the state untouched. -/
theorem applyCalibOp_gates_closed (t : FingersRetargeting) (op : CalibOp)
    (h : (t.motorJointsCoupled && t.doCalibration) = false) :
    applyCalibOp t op = (true, t) := by
  rcases Bool.and_eq_false_iff.mp h with h1 | h1 <;>
    cases op <;>
      simp [applyCalibOp, FingersRetargeting.LogDataToCalibrateRobotMotorsJointsCouplingRandom,
        FingersRetargeting.LogDataToCalibrateRobotMotorsJointsCouplingSin, h1]

/-- One calibration record operation preserves well-formedness of the sample
logs; a successful one with both gates open appends exactly one row to each
log, and one with a gate closed changes nothing. -/
theorem applyCalibOp_step (t : FingersRetargeting) (op : CalibOp)
    (h : SampleLogsWF t) :
    SampleLogsWF (applyCalibOp t op).2
    ∧ ((t.motorJointsCoupled && t.doCalibration) = true →
        (applyCalibOp t op).1 = true →
        (applyCalibOp t op).2.motorsData = t.motorsData ++ [t.calibMotorRow]
        ∧ (applyCalibOp t op).2.jointsData = t.jointsData ++ [t.calibJointRow])
    ∧ ((t.motorJointsCoupled && t.doCalibration) = false →
        applyCalibOp t op = (true, t)) := by
  obtain ⟨hlen, hm, hj⟩ := h
  by_cases hg : (t.motorJointsCoupled && t.doCalibration) = true
  · obtain ⟨hc, hd⟩ := Bool.and_eq_true_iff.mp hg
    cases hi : t.fingerIntegrator with
    | none =>
        have hfail : applyCalibOp t op = (false, t) := by
          cases op <;>
            simp [applyCalibOp,
              FingersRetargeting.LogDataToCalibrateRobotMotorsJointsCouplingRandom,
              FingersRetargeting.LogDataToCalibrateRobotMotorsJointsCouplingSin,
              hc, hd, hi]
        refine ⟨by rw [hfail]; exact ⟨hlen, hm, hj⟩, ?_, ?_⟩
        · intro _ htrue
          rw [hfail] at htrue
          cases htrue
        · intro hfalse
          rw [hg] at hfalse
          cases hfalse
    | some integ =>
        have happ :
            (applyCalibOp t op).1 = true
            ∧ (applyCalibOp t op).2.motorsData = t.motorsData ++ [t.calibMotorRow]
            ∧ (applyCalibOp t op).2.jointsData = t.jointsData ++ [t.calibJointRow]
            ∧ (applyCalibOp t op).2.ctrl.actuatedDoFs = t.ctrl.actuatedDoFs
            ∧ (applyCalibOp t op).2.ctrl.numberOfJoints = t.ctrl.numberOfJoints := by
          cases op with
          | random b r => exact logRandom_appends t b r integ hc hd hi hm hj
          | sinusoid p sv ax => exact logSin_appends t p sv ax integ hc hd hi hm hj
        obtain ⟨_, hmot, hjnt, hax, hnj⟩ := happ
        refine ⟨⟨?_, ?_, ?_⟩, fun _ _ => ⟨hmot, hjnt⟩, ?_⟩
        · rw [hmot, hjnt]; simp [hlen]
        · intro row hrow
          rw [hmot] at hrow
          rw [hax]
          rcases List.mem_append.mp hrow with h1 | h2
          · exact hm row h1
          · simp at h2
            rw [h2]
            simp [FingersRetargeting.calibMotorRow]
        · intro row hrow
          rw [hjnt] at hrow
          rw [hnj]
          rcases List.mem_append.mp hrow with h1 | h2
          · exact hj row h1
          · simp at h2
            rw [h2]
            simp [FingersRetargeting.calibJointRow]
        · intro hfalse
          rw [hg] at hfalse
          cases hfalse
  · have hg2 : (t.motorJointsCoupled && t.doCalibration) = false :=
      Bool.eq_false_iff.mpr hg
    have hnoop := applyCalibOp_gates_closed t op hg2
    refine ⟨by rw [hnoop]; exact ⟨hlen, hm, hj⟩, ?_, fun _ => hnoop⟩
    intro htrue
    rw [hg2] at htrue
    cases htrue

/-- Any sequence of calibration record operations preserves sample-log
well-formedness. -/
theorem runCalibOps_wf (ops : List CalibOp) :
    ∀ t : FingersRetargeting, SampleLogsWF t → SampleLogsWF (runCalibOps t ops) := by
  induction ops with
  | nil => intro t ht; simpa [runCalibOps] using ht
  | cons op rest ih =>
      intro t ht
      simpa [runCalibOps, List.foldl_cons] using
        ih (applyCalibOp t op).2 (applyCalibOp_step t op ht).1

/-- C10 (amended): starting from the empty sample logs left by `configure`,
any sequence of record operations keeps `m_motorsData` and `m_jointsData`
with equally many rows; a successful record with both `motorJointsCoupled`
and `doCalibration` true appends exactly one row to each log without
modifying existing rows, while a record with either flag false succeeds and
appends nothing. -/
theorem calibration_logs_stay_paired
    (s : FingersRetargeting) (ops : List CalibOp)
    (h0 : s.motorsData = [] ∧ s.jointsData = []) :
    (runCalibOps s ops).motorsData.length = (runCalibOps s ops).jointsData.length
    ∧ (∀ t : FingersRetargeting, SampleLogsWF t → ∀ op : CalibOp,
        ((t.motorJointsCoupled && t.doCalibration) = true →
          (applyCalibOp t op).1 = true →
          (applyCalibOp t op).2.motorsData = t.motorsData ++ [t.calibMotorRow]
          ∧ (applyCalibOp t op).2.jointsData = t.jointsData ++ [t.calibJointRow])
        ∧ ((t.motorJointsCoupled && t.doCalibration) = false →
          applyCalibOp t op = (true, t))) := by
  have hwf : SampleLogsWF s := by
    refine ⟨by rw [h0.1, h0.2], ?_, ?_⟩
    · intro row hrow; rw [h0.1] at hrow; cases hrow
    · intro row hrow; rw [h0.2] at hrow; cases hrow
  exact ⟨(runCalibOps_wf ops s hwf).1,
    fun t ht op => ⟨(applyCalibOp_step t op ht).2.1, (applyCalibOp_step t op ht).2.2⟩⟩

/-- C10 witness. -/
theorem calibration_logs_stay_paired_witness :
    (sampleHand.motorsData = [] ∧ sampleHand.jointsData = [])
    ∧ (runCalibOps sampleHand [CalibOp.sinusoid 1 0 0]).motorsData.length
        = (runCalibOps sampleHand [CalibOp.sinusoid 1 0 0]).jointsData.length :=
  ⟨⟨rfl, rfl⟩,
   (calibration_logs_stay_paired sampleHand [CalibOp.sinusoid 1 0 0] ⟨rfl, rfl⟩).1⟩

/-- C10 counterexample: on a hand configured with `motorsJointsCoupled =
false`, the random record operation is successful yet appends no row at all,
so a successful record operation does not always append exactly one row to
each log. -/
theorem calibration_record_succeeds_without_append :
    (uncoupledHand.LogDataToCalibrateRobotMotorsJointsCouplingRandom true [1, 1]).1 = true
    ∧ (uncoupledHand.LogDataToCalibrateRobotMotorsJointsCouplingRandom true [1, 1]).2
        = uncoupledHand
    ∧ ¬ ((uncoupledHand.LogDataToCalibrateRobotMotorsJointsCouplingRandom
          true [1, 1]).2.motorsData.length
        = uncoupledHand.motorsData.length + 1) := by
  simp [FingersRetargeting.LogDataToCalibrateRobotMotorsJointsCouplingRandom,
    uncoupledHand, sampleHand]

/-- Every branch of `updateModule` returns `true`. -/
theorem updateModule_returns_true (m : HapticGloveModule) (pi4 : ℚ) (env : CycleEnv) :
    (m.updateModule pi4 env).1 = true := by
  unfold HapticGloveModule.updateModule HapticGloveModule.getFeedbacks
  cases h : m.state <;> simp [h]

/-- A cycle from `Configured` moves to `InPreparation`. -/
theorem updateModule_from_configured (m : HapticGloveModule) (pi4 : ℚ) (env : CycleEnv)
    (h : m.state = HapticGloveFSM.Configured) :
    (m.updateModule pi4 env).2.state = HapticGloveFSM.InPreparation := by
  unfold HapticGloveModule.updateModule HapticGloveModule.getFeedbacks
  simp [h]

/-- A cycle from `InPreparation` records the start time and moves to
`Running`. -/
theorem updateModule_from_inPreparation (m : HapticGloveModule) (pi4 : ℚ) (env : CycleEnv)
    (h : m.state = HapticGloveFSM.InPreparation) :
    (m.updateModule pi4 env).2.state = HapticGloveFSM.Running
    ∧ (m.updateModule pi4 env).2.timeStarting = env.now := by
  unfold HapticGloveModule.updateModule HapticGloveModule.getFeedbacks
  simp [h]

/-- A cycle from `Running` stays in `Running`. -/
theorem updateModule_from_running (m : HapticGloveModule) (pi4 : ℚ) (env : CycleEnv)
    (h : m.state = HapticGloveFSM.Running) :
    (m.updateModule pi4 env).2.state = HapticGloveFSM.Running := by
  unfold HapticGloveModule.updateModule HapticGloveModule.getFeedbacks
  simp [h]

/-- Any number of cycles from `Running` stays in `Running`. -/
theorem runCycles_from_running (pi4 : ℚ) (envs : List CycleEnv) :
    ∀ m : HapticGloveModule, m.state = HapticGloveFSM.Running →
      (m.runCycles pi4 envs).state = HapticGloveFSM.Running := by
  induction envs with
  | nil => intro m h; simpa [HapticGloveModule.runCycles] using h
  | cons e es ih =>
      intro m h
      have h2 := updateModule_from_running m pi4 e h
      simpa [HapticGloveModule.runCycles, List.foldl_cons] using
        ih (m.updateModule pi4 e).2 h2

/-- C6: from `Configured`, one cycle reaches `InPreparation`; the next cycle
records the start timestamp and reaches `Running`; every further sequence of
cycles stays in `Running` and never revisits the earlier states. -/
theorem scheduler_configured_inPreparation_running
    (m : HapticGloveModule) (pi4 : ℚ) (e1 e2 : CycleEnv) (envs : List CycleEnv)
    (h : m.state = HapticGloveFSM.Configured) :
    (m.updateModule pi4 e1).2.state = HapticGloveFSM.InPreparation
    ∧ ((m.updateModule pi4 e1).2.updateModule pi4 e2).2.state = HapticGloveFSM.Running
    ∧ ((m.updateModule pi4 e1).2.updateModule pi4 e2).2.timeStarting = e2.now
    ∧ ((((m.updateModule pi4 e1).2.updateModule pi4 e2).2).runCycles pi4 envs).state
        = HapticGloveFSM.Running := by
  have h1 := updateModule_from_configured m pi4 e1 h
  have h2 := updateModule_from_inPreparation (m.updateModule pi4 e1).2 pi4 e2 h1
  exact ⟨h1, h2.1, h2.2, runCycles_from_running pi4 envs _ h2.1⟩

/-- C6 witness. -/
theorem scheduler_configured_inPreparation_running_witness :
    ({ sampleModule with state := HapticGloveFSM.Configured
        : HapticGloveModule }.updateModule 1 sampleEnv).2.state
          = HapticGloveFSM.InPreparation
    ∧ (({ sampleModule with state := HapticGloveFSM.Configured
        : HapticGloveModule }.updateModule 1 sampleEnv).2.updateModule 1 sampleEnv).2.state
          = HapticGloveFSM.Running
    ∧ (({ sampleModule with state := HapticGloveFSM.Configured
        : HapticGloveModule }.updateModule 1 sampleEnv).2.updateModule 1 sampleEnv).2.timeStarting
          = sampleEnv.now
    ∧ (((({ sampleModule with state := HapticGloveFSM.Configured
        : HapticGloveModule }.updateModule 1 sampleEnv).2.updateModule
          1 sampleEnv).2).runCycles 1 []).state = HapticGloveFSM.Running :=
  scheduler_configured_inPreparation_running
    { sampleModule with state := HapticGloveFSM.Configured } 1 sampleEnv sampleEnv [] rfl

/-- C9: a failed left-hand feedback read is reported by `updateFeedback` but
only logged by `getFeedbacks`: the cached measurements are retained, the
getters hand back the stale cache, and the cycle still returns `true`. -/
theorem feedback_failure_keeps_stale_cache
    (m : HapticGloveModule) (pi4 : ℚ) (env : CycleEnv)
    (h : env.leftReading = none) :
    m.leftHandFingers.updateFeedback env.leftReading = (false, m.leftHandFingers)
    ∧ (m.getFeedbacks env).1 = true
    ∧ (m.getFeedbacks env).2.leftHandFingers = m.leftHandFingers
    ∧ (m.getFeedbacks env).2.icubLeftFingerAxisFeedback
        = m.leftHandFingers.getFingerAxisMeasuredValues
    ∧ (m.getFeedbacks env).2.icubLeftFingerJointsFeedback
        = m.leftHandFingers.getFingerJointsMeasuredValues
    ∧ (m.updateModule pi4 env).1 = true := by
  refine ⟨?_, ?_, ?_, ?_, ?_, updateModule_returns_true m pi4 env⟩ <;>
    simp [HapticGloveModule.getFeedbacks, FingersRetargeting.updateFeedback,
      RobotControlHelper.getFeedback, FingersRetargeting.getFingerAxisMeasuredValues,
      FingersRetargeting.getFingerJointsMeasuredValues, h]

/-- C9 witness. -/
theorem feedback_failure_keeps_stale_cache_witness :
    sampleModule.leftHandFingers.updateFeedback
        ({ sampleEnv with leftReading := none : CycleEnv }).leftReading
        = (false, sampleModule.leftHandFingers)
    ∧ (sampleModule.getFeedbacks { sampleEnv with leftReading := none }).1 = true
    ∧ (sampleModule.getFeedbacks
        { sampleEnv with leftReading := none }).2.leftHandFingers
        = sampleModule.leftHandFingers
    ∧ (sampleModule.getFeedbacks
        { sampleEnv with leftReading := none }).2.icubLeftFingerAxisFeedback
        = sampleModule.leftHandFingers.getFingerAxisMeasuredValues
    ∧ (sampleModule.getFeedbacks
        { sampleEnv with leftReading := none }).2.icubLeftFingerJointsFeedback
        = sampleModule.leftHandFingers.getFingerJointsMeasuredValues
    ∧ (sampleModule.updateModule 1 { sampleEnv with leftReading := none }).1 = true :=
  feedback_failure_keeps_stale_cache sampleModule 1 { sampleEnv with leftReading := none } rfl

/-- C7 (evaluation of the code at the failing input): in `Running` the cycle
refreshes the left hand's feedback from the fresh reading, leaves the right
hand's cached feedback stale even though the environment offers a fresh
right-hand reading, yet pushes the shared sinusoidal reference to both
retargeting engines and moves both actuators; the cycle result does not
depend on the right-hand reading at all. -/
theorem running_cycle_reads_left_feedback_only :
    (sampleModule.updateModule 1 sampleEnv).2.icubLeftFingerAxisFeedback = [1, 2]
    ∧ (sampleModule.updateModule 1 sampleEnv).2.leftHandFingers.ctrl.encoderCache = [1, 2]
    ∧ (sampleModule.updateModule 1 sampleEnv).2.rightHandFingers.ctrl.encoderCache = [9, 9]
    ∧ (sampleModule.updateModule 1 sampleEnv).2.icubRightFingerAxisFeedback = [9, 9]
    ∧ (sampleModule.updateModule 1 sampleEnv).2.leftHandFingers.desiredMotorValue = [1, 2]
    ∧ (sampleModule.updateModule 1 sampleEnv).2.rightHandFingers.desiredMotorValue = [1, 2]
    ∧ (sampleModule.updateModule 1 sampleEnv).2.leftHandFingers.ctrl.lastMoveCommand
        = some [1, 2]
    ∧ (sampleModule.updateModule 1 sampleEnv).2.rightHandFingers.ctrl.lastMoveCommand
        = some [1, 2]
    ∧ sampleModule.updateModule 1 sampleEnv
        = sampleModule.updateModule 1 { sampleEnv with rightReading := none } := by
  norm_num [HapticGloveModule.updateModule, HapticGloveModule.getFeedbacks,
    HapticGloveModule.refSample, HapticGloveModule.overwriteFirst,
    FingersRetargeting.updateFeedback, FingersRetargeting.getFingerAxisMeasuredValues,
    FingersRetargeting.getFingerJointsMeasuredValues,
    FingersRetargeting.setFingersAxisReference, FingersRetargeting.move,
    RobotControlHelper.getFeedback, sampleModule, sampleLeftHand, sampleRightHand,
    sampleHand, sampleCtrl, sampleEnv, List.range_succ]

/-- C8 witness. -/
theorem calibration_log_noop_when_disabled_witness :
    ({ sampleHand with doCalibration := false
        : FingersRetargeting }).LogDataToCalibrateRobotMotorsJointsCouplingRandom
        true [1, 1] = (true, { sampleHand with doCalibration := false })
    ∧ ({ sampleHand with doCalibration := false
        : FingersRetargeting }).LogDataToCalibrateRobotMotorsJointsCouplingSin
        1 0 0 = (true, { sampleHand with doCalibration := false }) :=
  calibration_log_noop_when_disabled
    { sampleHand with doCalibration := false } true [1, 1] 1 0 0 (Or.inr rfl)

end WalkingTeleop
